import Mathlib

/-!
Verification of the boot-image unpacking scripts.

The repository holds two Python variants of the unpacker:
* `src/scripts/unpack_bootimg.py` — a standalone script with an extended-layout
  header parser (`BootImageHeader.parse`), a page-alignment helper
  (`align_size`), inline offset computation and component extraction, and a
  `bootimg.info` emitter.
* `src/scripts/scripts/unpack_bootimg.py` — a two-strategy orchestrator: it
  first delegates to the external `abootimg` tool (`try_abootimg_extract`) and
  falls back to a self-contained legacy-layout parser (`try_minimal_parse`,
  with helper `align_up`).

Byte buffers are modelled as `List Nat` (one natural per byte); Python slices
clamp at the end of the buffer, which `List.drop`/`List.take` model exactly.
-/

set_option autoImplicit false
set_option maxRecDepth 100000

deriving instance DecidableEq for Except

namespace BootImg

/-- Byte `data[i]` as Python reads it through `struct.unpack`, with 0 past the end
(out-of-range reads only occur in branches guarded by length checks). -/
def byteAt (data : List Nat) (i : Nat) : Nat := data.getD i 0

/-- Python slice `data[off : off + len]`: clamps at the end of the buffer. -/
def sliceBytes (data : List Nat) (off len : Nat) : List Nat :=
  (data.drop off).take len

/-- Little-endian unsigned 32-bit read at byte offset `i` (a `<I` field). -/
def readU32 (data : List Nat) (i : Nat) : Nat :=
  byteAt data i + 256 * byteAt data (i + 1) +
    65536 * byteAt data (i + 2) + 16777216 * byteAt data (i + 3)

/-- The 8-byte boot-image signature, the bytes of ANDROID! . -/
def ANDROID_MAGIC : List Nat := [65, 78, 68, 82, 79, 73, 68, 33]

/-- Embeds `align_size` from `src/scripts/unpack_bootimg.py` lines 84-86:
`((size + page_size - 1) // page_size) * page_size`. -/
def align_size (size page_size : Nat) : Nat :=
  ((size + page_size - 1) / page_size) * page_size

/-- Embeds `align_up` from `src/scripts/scripts/unpack_bootimg.py` lines 65-66:
`(x + page_size - 1) // page_size * page_size` (same formula as `align_size`;
the two variants each define their own copy). -/
def align_up (x page_size : Nat) : Nat :=
  (x + page_size - 1) / page_size * page_size

/-- The spec's alignment function (§4.2): `align(x, p) = ceil(x / p) * p`,
written with Mathlib's ceiling division `x ⌈/⌉ p` (for `0 < p` the least `c`
with `x ≤ p * c`). -/
def alignSpec (x p : Nat) : Nat := p * (x ⌈/⌉ p)

/-- The component offsets computed by the self-contained parsers. Identical
field names are used for both variants; `try_minimal_parse` locally calls them
`kernel_off`, `ramdisk_off`, `second_off`, `dt_off`. -/
structure BootOffsets where
  kernel_offset : Nat
  ramdisk_offset : Nat
  second_offset : Nat
  dt_offset : Nat
deriving Repr, DecidableEq

/-- Offset computation of `src/scripts/unpack_bootimg.py` lines 119-124:
each pre-aligned component size is added to the previous offset. -/
def bootimgOffsets (kernel_size ramdisk_size second_size page_size : Nat) :
    BootOffsets :=
  let kernel_offset := page_size
  let ramdisk_offset := kernel_offset + align_size kernel_size page_size
  let second_offset := ramdisk_offset + align_size ramdisk_size page_size
  let dt_offset := second_offset + align_size second_size page_size
  ⟨kernel_offset, ramdisk_offset, second_offset, dt_offset⟩

/-- Offset computation of `try_minimal_parse`
(`src/scripts/scripts/unpack_bootimg.py` lines 113-117): the running sum is
aligned after adding each raw component size. -/
def legacyOffsets (kernel_size ramdisk_size second_size page_size : Nat) :
    BootOffsets :=
  let kernel_off := page_size
  let ramdisk_off := align_up (kernel_off + kernel_size) page_size
  let second_off := align_up (ramdisk_off + ramdisk_size) page_size
  let dt_off := align_up (second_off + second_size) page_size
  ⟨kernel_off, ramdisk_off, second_off, dt_off⟩

/- Arithmetic facts about the alignment helpers. -/

theorem align_size_eq_alignSpec (x p : Nat) : align_size x p = alignSpec x p := by
  unfold align_size alignSpec
  rw [Nat.ceilDiv_eq_add_pred_div, Nat.mul_comm]

theorem align_up_eq_align_size (x p : Nat) : align_up x p = align_size x p := rfl

theorem le_alignSpec (x p : Nat) (hp : 0 < p) : x ≤ alignSpec x p :=
  le_smul_ceilDiv hp

theorem alignSpec_lt (x p : Nat) (hp : 0 < p) : alignSpec x p < x + p := by
  have h1 : (x + p - 1) / p * p ≤ x + p - 1 := Nat.div_mul_le_self _ _
  have h2 : x + p - 1 < x + p := by omega
  calc alignSpec x p = (x + p - 1) / p * p := by
        rw [← align_size_eq_alignSpec]; rfl
    _ ≤ x + p - 1 := h1
    _ < x + p := h2

theorem dvd_alignSpec (x p : Nat) : p ∣ alignSpec x p := Dvd.intro _ rfl

theorem alignSpec_min (x p m : Nat) (hp : 0 < p) (hdvd : p ∣ m) (hx : x ≤ m) :
    alignSpec x p ≤ m := by
  obtain ⟨c, rfl⟩ := hdvd
  have hc : x ⌈/⌉ p ≤ c := (ceilDiv_le_iff_le_mul hp).2 hx
  exact Nat.mul_le_mul_left p hc

/-- Aligning after adding an already-aligned quantity is the same as adding the
separately aligned remainder: the key step relating the two offset variants. -/
theorem align_up_add_of_dvd (a x p : Nat) (hp : 0 < p) (ha : p ∣ a) :
    align_up (a + x) p = a + align_size x p := by
  obtain ⟨m, rfl⟩ := ha
  unfold align_up align_size
  have h : p * m + x + p - 1 = p * m + (x + p - 1) := by omega
  rw [h, Nat.mul_add_div hp]
  ring

theorem dvd_align_size (x p : Nat) : p ∣ align_size x p :=
  Dvd.intro_left _ rfl

/-! ## Variant 1: the standalone script `src/scripts/unpack_bootimg.py` -/

/-- An extracted component: output file name and raw bytes. -/
structure Artifact where
  name : String
  content : List Nat
deriving Repr, DecidableEq

/-- The header attributes initialised by `BootImageHeader.__init__`
(lines 22-40), typed after their initial values (counts/addresses are
integers, text fields byte strings). -/
structure BootImageHeader where
  kernel_size : Nat := 0
  kernel_addr : Nat := 0
  ramdisk_size : Nat := 0
  ramdisk_addr : Nat := 0
  second_size : Nat := 0
  second_addr : Nat := 0
  tags_addr : Nat := 0
  page_size : Nat := 0
  dt_size : Nat := 0
  os_version : Nat := 0
  name : List Nat := []
  cmdline : List Nat := []
  id : List Nat := []
  extra_cmdline : List Nat := []
  recovery_dtbo_size : Nat := 0
  recovery_dtbo_offset : Nat := 0
  header_size : Nat := 0
  header_version : Nat := 0
deriving Repr, DecidableEq

/-- Outcomes of `BootImageHeader.parse`, which signals failure by raising:
`truncated` is the ValueError "Boot image header too small" (line 45),
`invalidMagic` the ValueError "Invalid boot magic: ..." carrying the observed
`data[0:8]` (line 49), and `structError` the `struct.error` raised by
`struct.unpack` (line 59) — an exception the caller's `except ValueError`
handler does not catch. -/
inductive ParseError where
  | truncated
  | invalidMagic (observed : List Nat)
  | structError
deriving Repr, DecidableEq

/-- Value of `struct.calcsize` for the format `<11I16s512s32s1024sIQI` used on line 58:
eleven u32 fields, four byte-string fields, then u32, u64, u32. -/
def extendedFmtSize : Nat := 11 * 4 + 16 + 512 + 32 + 1024 + 4 + 8 + 4

/-- Embeds `BootImageHeader.parse` (lines 42-81). After the length and magic checks
the source calls `struct.unpack` on `data[8:1632]`, a slice of at most 1624
bytes, with a format whose size is 1644 bytes; `struct.unpack` raises
`struct.error` whenever the buffer length differs from the format size, so the
call always raises and the field assignments on lines 61-79 never execute
(see `extended_unpack_size_mismatch`). -/
def BootImageHeader.parse (data : List Nat) :
    Except ParseError BootImageHeader :=
  if data.length < 1632 then .error .truncated
  else if sliceBytes data 0 8 ≠ ANDROID_MAGIC then
    .error (.invalidMagic (sliceBytes data 0 8))
  else .error .structError

/-- The buffer handed to `struct.unpack` by `BootImageHeader.parse` never has
the 1644 bytes the format `<11I16s512s32s1024sIQI` requires: `data[8:1632]`
holds at most 1624 bytes. -/
theorem extended_unpack_size_mismatch (data : List Nat) :
    (sliceBytes data 8 (1632 - 8)).length ≠ extendedFmtSize := by
  have h : (sliceBytes data 8 (1632 - 8)).length ≤ 1624 := by
    unfold sliceBytes
    simp [List.length_take_le]
  intro heq
  rw [heq] at h
  norm_num [extendedFmtSize] at h

/-- Component extraction of `unpack_bootimg` (lines 119-156): offsets are
computed from the header, then kernel, ramdisk and second stage are sliced out
whenever their declared size is positive, and the device tree additionally
only when its range fits inside the buffer. The ramdisk artifact is named
`ramdisk.gz` (line 136). -/
def extractComponents (header : BootImageHeader) (boot_data : List Nat) :
    List Artifact :=
  let offs := bootimgOffsets header.kernel_size header.ramdisk_size
    header.second_size header.page_size
  (if 0 < header.kernel_size then
    [⟨"kernel", sliceBytes boot_data offs.kernel_offset header.kernel_size⟩]
  else []) ++
  (if 0 < header.ramdisk_size then
    [⟨"ramdisk.gz", sliceBytes boot_data offs.ramdisk_offset header.ramdisk_size⟩]
  else []) ++
  (if 0 < header.second_size then
    [⟨"second", sliceBytes boot_data offs.second_offset header.second_size⟩]
  else []) ++
  (if 0 < header.dt_size ∧ offs.dt_offset + header.dt_size ≤ boot_data.length then
    [⟨"dt.img", sliceBytes boot_data offs.dt_offset header.dt_size⟩]
  else [])

/-- One hexadecimal digit, lowercase. -/
def hexChar (n : Nat) : Char :=
  Char.ofNat (if n < 10 then 48 + n else 87 + n)

/-- The address format of the standalone emitter (lines 162-167) and of the
spec (§6): zero-padded eight-digit lowercase hexadecimal, Python `{:08x}` for
a 32-bit value. -/
def hex8 (n : Nat) : String :=
  String.mk ((List.range 8).map (fun i => hexChar (n / 16 ^ (7 - i) % 16)))

/-! ## Variant 2: the two-strategy script `src/scripts/scripts/unpack_bootimg.py` -/

/-- Models Python `bytes.decode(errors=ignore)` on the byte lists the parser
produces: ASCII bytes map to their characters and other bytes are dropped.
(On multi-byte UTF-8 sequences Python would decode them instead; no claim
depends on non-ASCII text, and all concrete inputs used here are ASCII.) -/
def decodeIgnore (bs : List Nat) : String :=
  String.mk ((bs.filter (fun b => b < 128)).map Char.ofNat)

/-- The header values bound by `try_minimal_parse` (lines 100-108) from the
legacy-layout fields it actually reads: `hdr[1]` at byte offset 8, `hdr[3]` at
16, `hdr[5]` at 24, `hdr[8]` at 36, `hdr[9]` at 40, `hdr[10]` at 44, `name` at
48 and `cmdline` at 64, the text fields split at the first null byte and
decoded ignoring errors. -/
structure LegacyHeader where
  kernel_size : Nat
  ramdisk_size : Nat
  second_size : Nat
  page_size : Nat
  dt_size : Nat
  os_version : Nat
  name : String
  cmdline : String
deriving Repr, DecidableEq

/-- Field decoding of `try_minimal_parse` (lines 95-108). -/
def readLegacyHeader (data : List Nat) : LegacyHeader where
  kernel_size := readU32 data 8
  ramdisk_size := readU32 data 16
  second_size := readU32 data 24
  page_size := readU32 data 36
  dt_size := readU32 data 40
  os_version := readU32 data 44
  name := decodeIgnore ((sliceBytes data 48 16).takeWhile (fun b => b ≠ 0))
  cmdline := decodeIgnore ((sliceBytes data 64 512).takeWhile (fun b => b ≠ 0))

/-- The page-size substitution of lines 110-111: a declared zero page size is
replaced by the default 2048. -/
def effectivePageSize (raw : Nat) : Nat := if raw = 0 then 2048 else raw

/-- Value of `struct.calcsize` for the legacy format `<8s10I16s512s8I` (line 95):
`struct.unpack_from` at offset 0 raises `struct.error` on buffers shorter than
this. -/
def legacyFmtSize : Nat := 8 + 10 * 4 + 16 + 512 + 8 * 4

/-- Component extraction of `try_minimal_parse` (lines 119-134): kernel,
ramdisk and second stage are written whenever their declared size is positive;
the device tree additionally only when its computed range fits inside the
buffer. -/
def minimalExtract (data : List Nat) (hdr : LegacyHeader) (page_size : Nat) :
    List Artifact :=
  let offs := legacyOffsets hdr.kernel_size hdr.ramdisk_size hdr.second_size
    page_size
  (if 0 < hdr.kernel_size then
    [⟨"kernel", sliceBytes data offs.kernel_offset hdr.kernel_size⟩]
  else []) ++
  (if 0 < hdr.ramdisk_size then
    [⟨"ramdisk.img", sliceBytes data offs.ramdisk_offset hdr.ramdisk_size⟩]
  else []) ++
  (if 0 < hdr.second_size then
    [⟨"second", sliceBytes data offs.second_offset hdr.second_size⟩]
  else []) ++
  (if 0 < hdr.dt_size ∧ offs.dt_offset + hdr.dt_size ≤ data.length then
    [⟨"dt.img", sliceBytes data offs.dt_offset hdr.dt_size⟩]
  else [])

/-- The `bootimg.info` lines written by `try_minimal_parse` (lines 136-150),
as key/value pairs in file order. Addresses are written as the literal `0x0`
and `header_version` as the literal `0`; `page_size` is the substituted
value. -/
def minimalInfo (hdr : LegacyHeader) (page_size : Nat) :
    List (String × String) :=
  [("kernel_size", toString hdr.kernel_size),
   ("kernel_addr", "0x0"),
   ("ramdisk_size", toString hdr.ramdisk_size),
   ("ramdisk_addr", "0x0"),
   ("second_size", toString hdr.second_size),
   ("second_addr", "0x0"),
   ("tags_addr", "0x0"),
   ("page_size", toString page_size),
   ("dt_size", toString hdr.dt_size),
   ("header_version", "0"),
   ("os_version", toString hdr.os_version),
   ("name", hdr.name),
   ("cmdline", hdr.cmdline),
   ("extra_cmdline", "")]

/-- Failure outcomes of `try_minimal_parse`: `invalidMagic` carries the
observed `data[:8]` printed on line 74, `truncated` is the
"header too short or unsupported format" path (lines 96-98, the
`struct.error` from `struct.unpack_from` on a buffer shorter than the 608-byte
legacy layout). Both make the function return False. -/
inductive MinErr where
  | invalidMagic (observed : List Nat)
  | truncated
deriving Repr, DecidableEq

/-- Everything a successful `try_minimal_parse` writes into the output
directory: the component artifacts and the `bootimg.info` record. -/
structure MinimalResult where
  artifacts : List Artifact
  info : List (String × String)
deriving Repr, DecidableEq

/-- Embeds `try_minimal_parse` (lines 68-153): magic check first (`data.startswith`,
modelled as equality of the first eight bytes, line 73), then the legacy
`struct.unpack_from` (failing on buffers shorter than 608 bytes, lines 94-98),
then field decoding, page-size substitution, offsets, extraction and the info
record. -/
def tryMinimalParse (data : List Nat) : Except MinErr MinimalResult :=
  if sliceBytes data 0 8 ≠ ANDROID_MAGIC then
    .error (.invalidMagic (sliceBytes data 0 8))
  else if data.length < legacyFmtSize then .error .truncated
  else
    let hdr := readLegacyHeader data
    let page_size := effectivePageSize hdr.page_size
    .ok ⟨minimalExtract data hdr page_size, minimalInfo hdr page_size⟩

/-- The kernel-image names `try_abootimg_extract` looks for (line 22). -/
def kernel_candidates : List String :=
  ["zImage", "kernel", "zImage-dtb", "Image.gz-dtb", "Image.lz4-dtb", "Image"]

/-- The ramdisk-image names `try_abootimg_extract` looks for (line 23). -/
def ramdisk_candidates : List String :=
  ["initrd.img", "ramdisk.img", "ramdisk.gz", "ramdisk.cpio.gz",
   "initramfs.cpio.gz"]

/-- Consumes one byte `b` from the front of the input, as a regex literal
does: succeeds with the rest exactly when the input starts with `b`. -/
def expectByte (b : Nat) : List Nat → Option (List Nat)
  | c :: r => if c = b then some r else none
  | [] => none

/-- Models the regex match of `val` (lines 43-46) against one config line.
The pattern is built in a raw string as `^key\\s*=\\s*(\\S+)`, so each
doubled backslash is an escaped backslash in the regex, not a character
class: a line matches only as the key, a literal backslash (byte 92), a run
of the letter s (115), an equals sign (61), a second literal backslash, a
run of s, then the captured group — a third literal backslash followed by at
least one letter S (83). The greedy runs are unambiguous because s differs
from the byte each run must stop before. Returns the captured group. -/
def valMatchLine (key line : List Nat) : Option (List Nat) :=
  if line.take key.length = key then
    match expectByte 92 (line.drop key.length) with
    | none => none
    | some r1 =>
      match expectByte 61 (r1.dropWhile (fun c => c = 115)) with
      | none => none
      | some r2 =>
        match expectByte 92 r2 with
        | none => none
        | some r3 =>
          match expectByte 92 (r3.dropWhile (fun c => c = 115)) with
          | none => none
          | some r4 =>
            let run := r4.takeWhile (fun c => c = 83)
            if run.isEmpty then none else some (92 :: run)
  else none

/-- Embeds `val` (lines 43-46): `re.search` with `re.M` anchors `^` at every
line start, and no byte of the pattern can match a newline, so the search
tries each config line in order; the first captured group is returned
(decoded, as the config is text) and otherwise the per-call default. The
source names the second parameter `default`. -/
def val (cfg : List (List Nat)) (key : String) (dflt : String) : String :=
  match cfg.findSome? (valMatchLine (key.data.map Char.toNat)) with
  | some g => decodeIgnore g
  | none => dflt

/-- The observable behaviour of the delegated external `abootimg` run
(an external collaborator, spec §6): whether the subprocess ran and exited
zero (`runOk` is false both when the tool is missing, FileNotFoundError, and
when it exits non-zero, CalledProcessError), which files it left in the
temporary directory, their contents, and the text lines of the
`bootimg.cfg` it left (meaningful only when that file is present). -/
structure ToolEnv where
  runOk : Bool
  files : List String
  fileContent : String → List Nat
  cfgLines : List (List Nat)

/-- What a successful `try_abootimg_extract` writes into the output
directory: the two component copies, whether `bootimg.cfg` was copied, and the
`bootimg.info` record — which is only written when the tool left a
`bootimg.cfg` (lines 39-60). -/
structure AbootResult where
  artifacts : List Artifact
  cfgCopied : Bool
  info : Option (List (String × String))

/-- Models `next((f for f in candidates if exists(f)), None)` (lines 25-26). -/
def firstSource (candidates : List String) (files : List String) :
    Option String :=
  candidates.find? (fun c => files.contains c)

/-- The best-effort `bootimg.info` written on the delegated path
(lines 47-60): known-unknown fields are the literal `0` or the empty string,
and the four `val`-backed values come from the tool's config text. -/
def abootInfo (env : ToolEnv) : List (String × String) :=
  [("kernel_size", "0"),
   ("kernel_addr", val env.cfgLines "kerneladdr" "0"),
   ("ramdisk_size", "0"),
   ("ramdisk_addr", val env.cfgLines "ramdiskaddr" "0"),
   ("second_size", "0"),
   ("second_addr", "0"),
   ("tags_addr", val env.cfgLines "tagsaddr" "0"),
   ("page_size", val env.cfgLines "pagesize" "2048"),
   ("dt_size", "0"),
   ("header_version", "0"),
   ("os_version", "0"),
   ("name", ""),
   ("cmdline", ""),
   ("extra_cmdline", "")]

/-- The info record the delegated path writes whenever no config line holds a
literal backslash — that is, for every ordinary `key = value` config: all
sentinels and the four `val` defaults (see `abootInfo_defaults`). -/
def abootInfoDefaults : List (String × String) :=
  [("kernel_size", "0"), ("kernel_addr", "0"), ("ramdisk_size", "0"),
   ("ramdisk_addr", "0"), ("second_size", "0"), ("second_addr", "0"),
   ("tags_addr", "0"), ("page_size", "2048"), ("dt_size", "0"),
   ("header_version", "0"), ("os_version", "0"), ("name", ""),
   ("cmdline", ""), ("extra_cmdline", "")]

theorem mem_of_expectByte (b : Nat) (xs r : List Nat)
    (h : expectByte b xs = some r) : b ∈ xs := by
  cases xs with
  | nil => exact Option.noConfusion h
  | cons c cs =>
    simp only [expectByte] at h
    split at h
    · next hc =>
        subst hc
        exact List.mem_cons_self _ _
    · exact Option.noConfusion h

/-- The escaped backslashes of the `val` pattern make any match require a
literal backslash byte right after the key, so a config line containing no
backslash never matches. -/
theorem valMatchLine_no_backslash (key line : List Nat)
    (h : ¬ 92 ∈ line) : valMatchLine key line = none := by
  unfold valMatchLine
  split
  · cases he : expectByte 92 (line.drop key.length) with
    | none => rfl
    | some r1 =>
      exact absurd (List.drop_subset _ _ (mem_of_expectByte 92 _ r1 he)) h
  · rfl

/-- On any config whose lines hold no backslash byte — every ordinary
`key = value` config — `val` returns its default. -/
theorem val_default (cfg : List (List Nat)) (key dflt : String)
    (h : ∀ line ∈ cfg, ¬ 92 ∈ line) : val cfg key dflt = dflt := by
  unfold val
  have hnone : cfg.findSome? (valMatchLine (key.data.map Char.toNat)) =
      none := by
    induction cfg with
    | nil => rfl
    | cons l ls ih =>
      rw [List.findSome?_cons,
        valMatchLine_no_backslash _ l (h l (List.mem_cons_self l ls))]
      exact ih (fun x hx => h x (List.mem_cons_of_mem l hx))
  rw [hnone]

/-- On any backslash-free config the delegated path writes exactly the
default info record: the four `val`-backed entries fall back to 0/0/0/2048
and are never copied from the config. -/
theorem abootInfo_defaults (env : ToolEnv)
    (h : ∀ line ∈ env.cfgLines, ¬ 92 ∈ line) :
    abootInfo env = abootInfoDefaults := by
  unfold abootInfo abootInfoDefaults
  rw [val_default env.cfgLines "kerneladdr" "0" h,
    val_default env.cfgLines "ramdiskaddr" "0" h,
    val_default env.cfgLines "tagsaddr" "0" h,
    val_default env.cfgLines "pagesize" "2048" h]

/-- Embeds `try_abootimg_extract` (lines 12-63): fails (returns False) when the tool
run failed or when no kernel or no ramdisk candidate file exists; otherwise
copies the first matching kernel and ramdisk under the fixed names `kernel`
and `ramdisk.img`, copies `bootimg.cfg` when present, and writes
`bootimg.info` only when `bootimg.cfg` is present. -/
def try_abootimg_extract (env : ToolEnv) : Option AbootResult :=
  if ¬ env.runOk then none
  else
    match firstSource kernel_candidates env.files,
      firstSource ramdisk_candidates env.files with
    | some k, some r =>
      let cfg := env.files.contains "bootimg.cfg"
      some ⟨[⟨"kernel", env.fileContent k⟩, ⟨"ramdisk.img", env.fileContent r⟩],
        cfg, if cfg then some (abootInfo env) else none⟩
    | _, _ => none

/-- Terminal states of a `main` run of the two-strategy script. -/
inductive UnpackOutcome where
  | viaTool (r : AbootResult)
  | viaMinimal (r : MinimalResult)
  | failed (e : MinErr)

/-- Embeds `main` (lines 155-169): try the delegated tool first and exit 0 on its
success; otherwise fall back to the self-contained parser and exit 0 or 1
according to its outcome. Returns the terminal state and the exit code. -/
def mainRun (env : ToolEnv) (data : List Nat) : UnpackOutcome × Nat :=
  match try_abootimg_extract env with
  | some r => (.viaTool r, 0)
  | none =>
    match tryMinimalParse data with
    | .ok r => (.viaMinimal r, 0)
    | .error e => (.failed e, 1)

/-! ## Branch lemmas for the self-contained parsers -/

theorem tryMinimalParse_magic_fail (data : List Nat)
    (hm : sliceBytes data 0 8 ≠ ANDROID_MAGIC) :
    tryMinimalParse data = .error (.invalidMagic (sliceBytes data 0 8)) := by
  unfold tryMinimalParse
  rw [if_pos hm]

theorem tryMinimalParse_short (data : List Nat)
    (hm : sliceBytes data 0 8 = ANDROID_MAGIC)
    (hl : data.length < legacyFmtSize) :
    tryMinimalParse data = .error .truncated := by
  unfold tryMinimalParse
  rw [if_neg (not_not_intro hm), if_pos hl]

theorem tryMinimalParse_eq_ok (data : List Nat)
    (hm : sliceBytes data 0 8 = ANDROID_MAGIC)
    (hl : ¬ data.length < legacyFmtSize) :
    tryMinimalParse data =
      .ok ⟨minimalExtract data (readLegacyHeader data)
            (effectivePageSize (readLegacyHeader data).page_size),
          minimalInfo (readLegacyHeader data)
            (effectivePageSize (readLegacyHeader data).page_size)⟩ := by
  unfold tryMinimalParse
  rw [if_neg (not_not_intro hm), if_neg hl]

/-! ## Declaring the page size explicitly (claim C2) -/

/-- The same buffer with the page size 2048 declared explicitly: bytes 36-39,
the little-endian page_size field of the legacy layout, replaced by
0x00 0x08 0x00 0x00; every other byte is unchanged. -/
def patchPageSize (data : List Nat) : List Nat :=
  data.take 36 ++ [0, 8, 0, 0] ++ data.drop 40

theorem patchPageSize_length (data : List Nat) (h : 40 ≤ data.length) :
    (patchPageSize data).length = data.length := by
  unfold patchPageSize
  simp only [List.length_append, List.length_take, List.length_cons,
    List.length_nil, List.length_drop]
  omega

theorem patchPageSize_getElem (data : List Nat) (h : 40 ≤ data.length)
    (i : Nat) (hi : i < 36 ∨ 40 ≤ i) :
    (patchPageSize data)[i]? = data[i]? := by
  have ht : (data.take 36).length = 36 := by
    rw [List.length_take]; omega
  have hf : (data.take 36 ++ [0, 8, 0, 0]).length = 40 := by
    rw [List.length_append, ht]
    rfl
  rcases hi with hi | hi
  · unfold patchPageSize
    rw [List.getElem?_append, if_pos (by omega), List.getElem?_append,
      if_pos (by omega), List.getElem?_take, if_pos hi]
  · unfold patchPageSize
    rw [List.getElem?_append_right (by omega), hf, List.getElem?_drop]
    congr 1
    omega

theorem patchPageSize_byteAt (data : List Nat) (h : 40 ≤ data.length)
    (i : Nat) (hi : i < 36 ∨ 40 ≤ i) :
    byteAt (patchPageSize data) i = byteAt data i := by
  unfold byteAt
  rw [List.getD_eq_getElem?_getD, List.getD_eq_getElem?_getD,
    patchPageSize_getElem data h i hi]

theorem patchPageSize_readU32 (data : List Nat) (h : 40 ≤ data.length)
    (j : Nat) (hj : j + 3 < 36 ∨ 40 ≤ j) :
    readU32 (patchPageSize data) j = readU32 data j := by
  unfold readU32
  rw [patchPageSize_byteAt data h j (by omega),
    patchPageSize_byteAt data h (j + 1) (by omega),
    patchPageSize_byteAt data h (j + 2) (by omega),
    patchPageSize_byteAt data h (j + 3) (by omega)]

theorem patchPageSize_patched (data : List Nat) (h : 40 ≤ data.length)
    (j : Nat) (hj : j < 4) :
    (patchPageSize data)[36 + j]? = ([0, 8, 0, 0] : List Nat)[j]? := by
  have ht : (data.take 36).length = 36 := by
    rw [List.length_take]; omega
  have hf : (data.take 36 ++ [0, 8, 0, 0]).length = 40 := by
    rw [List.length_append, ht]
    rfl
  unfold patchPageSize
  rw [List.getElem?_append, if_pos (by omega),
    List.getElem?_append_right (by omega), ht]
  have hidx : 36 + j - 36 = j := by omega
  rw [hidx]

theorem patchPageSize_page (data : List Nat) (h : 40 ≤ data.length) :
    readU32 (patchPageSize data) 36 = 2048 := by
  have h36 : (patchPageSize data)[(36 : Nat)]? = some 0 := by
    simpa using patchPageSize_patched data h 0 (by omega)
  have h37 : (patchPageSize data)[(36 + 1 : Nat)]? = some 8 :=
    patchPageSize_patched data h 1 (by omega)
  have h38 : (patchPageSize data)[(36 + 2 : Nat)]? = some 0 :=
    patchPageSize_patched data h 2 (by omega)
  have h39 : (patchPageSize data)[(36 + 3 : Nat)]? = some 0 :=
    patchPageSize_patched data h 3 (by omega)
  unfold readU32 byteAt
  rw [List.getD_eq_getElem?_getD, List.getD_eq_getElem?_getD,
    List.getD_eq_getElem?_getD, List.getD_eq_getElem?_getD,
    h36, h37, h38, h39]
  rfl

theorem patchPageSize_slice (data : List Nat) (off n : Nat)
    (hoff : 40 ≤ off) :
    sliceBytes (patchPageSize data) off n = sliceBytes data off n := by
  obtain ⟨j, rfl⟩ := Nat.exists_eq_add_of_le hoff
  unfold sliceBytes patchPageSize
  by_cases h40 : 40 ≤ data.length
  · have hf : (data.take 36 ++ [0, 8, 0, 0]).length = 40 := by
      simp only [List.length_append, List.length_take, List.length_cons,
        List.length_nil]
      omega
    conv_lhs =>
      rw [show 40 + j = (data.take 36 ++ [0, 8, 0, 0]).length + j by rw [hf]]
    rw [List.drop_append, List.drop_drop]
  · -- short buffer: both drops are past the end of both lists
    have hlen : data.length < 40 := by omega
    have hL : (data.take 36 ++ [0, 8, 0, 0] ++ data.drop 40).length ≤ 40 + j := by
      simp only [List.length_append, List.length_take, List.length_cons,
        List.length_nil, List.length_drop]
      omega
    rw [List.drop_eq_nil_of_le hL, List.drop_eq_nil_of_le (by omega)]

theorem patchPageSize_magic (data : List Nat) (h : 40 ≤ data.length) :
    sliceBytes (patchPageSize data) 0 8 = sliceBytes data 0 8 := by
  unfold sliceBytes patchPageSize
  have ht : (data.take 36).length = 36 := by
    rw [List.length_take]; omega
  have hf : (data.take 36 ++ [0, 8, 0, 0]).length = 40 := by
    rw [List.length_append, ht]
    rfl
  rw [List.drop_zero, List.drop_zero,
    List.take_append_of_le_length (by omega),
    List.take_append_of_le_length (by omega),
    List.take_take]
  norm_num

theorem patchPageSize_header (data : List Nat) (h : legacyFmtSize ≤ data.length) :
    readLegacyHeader (patchPageSize data) =
      { readLegacyHeader data with page_size := 2048 } := by
  have h40 : 40 ≤ data.length := by
    have : (40 : Nat) ≤ legacyFmtSize := by norm_num [legacyFmtSize]
    omega
  unfold readLegacyHeader
  rw [patchPageSize_readU32 data h40 8 (by omega),
    patchPageSize_readU32 data h40 16 (by omega),
    patchPageSize_readU32 data h40 24 (by omega),
    patchPageSize_readU32 data h40 40 (by omega),
    patchPageSize_readU32 data h40 44 (by omega),
    patchPageSize_page data h40,
    patchPageSize_slice data 48 16 (by omega),
    patchPageSize_slice data 64 512 (by omega)]

theorem legacyOffsets_ge (ks rs ss p : Nat) (hp : 0 < p) :
    p ≤ (legacyOffsets ks rs ss p).kernel_offset ∧
    p ≤ (legacyOffsets ks rs ss p).ramdisk_offset ∧
    p ≤ (legacyOffsets ks rs ss p).second_offset ∧
    p ≤ (legacyOffsets ks rs ss p).dt_offset := by
  have key : ∀ x : Nat, x ≤ align_up x p := fun x => by
    rw [align_up_eq_align_size, align_size_eq_alignSpec]
    exact le_alignSpec x p hp
  have h1 : p + ks ≤ align_up (p + ks) p := key _
  have h2 : align_up (p + ks) p + rs ≤ align_up (align_up (p + ks) p + rs) p :=
    key _
  have h3 : align_up (align_up (p + ks) p + rs) p + ss ≤
      align_up (align_up (align_up (p + ks) p + rs) p + ss) p := key _
  refine ⟨le_refl p, ?_, ?_, ?_⟩
  · show p ≤ align_up (p + ks) p
    omega
  · show p ≤ align_up (align_up (p + ks) p + rs) p
    omega
  · show p ≤ align_up (align_up (align_up (p + ks) p + rs) p + ss) p
    omega

theorem patchPageSize_extract (data : List Nat) (hdr : LegacyHeader)
    (h : legacyFmtSize ≤ data.length) :
    minimalExtract (patchPageSize data) hdr 2048 =
      minimalExtract data hdr 2048 := by
  have h40 : 40 ≤ data.length := by
    have : (40 : Nat) ≤ legacyFmtSize := by norm_num [legacyFmtSize]
    omega
  obtain ⟨g1, g2, g3, g4⟩ :=
    legacyOffsets_ge hdr.kernel_size hdr.ramdisk_size hdr.second_size 2048
      (by omega)
  simp only [minimalExtract]
  rw [patchPageSize_slice data
      (legacyOffsets hdr.kernel_size hdr.ramdisk_size hdr.second_size
        2048).kernel_offset hdr.kernel_size (by omega),
    patchPageSize_slice data
      (legacyOffsets hdr.kernel_size hdr.ramdisk_size hdr.second_size
        2048).ramdisk_offset hdr.ramdisk_size (by omega),
    patchPageSize_slice data
      (legacyOffsets hdr.kernel_size hdr.ramdisk_size hdr.second_size
        2048).second_offset hdr.second_size (by omega),
    patchPageSize_slice data
      (legacyOffsets hdr.kernel_size hdr.ramdisk_size hdr.second_size
        2048).dt_offset hdr.dt_size (by omega),
    patchPageSize_length data h40]

/-! ## Concrete buffers used in witnesses and counterexamples -/

/-- A 608-byte buffer: the magic followed by zero bytes, so every header field
of the legacy layout decodes to 0 (in particular the declared page size). -/
def zeroBuf : List Nat := ANDROID_MAGIC ++ List.replicate 600 0

/-- A 608-byte buffer declaring kernel_size = 100 and every other field 0. -/
def c3buf : List Nat := ANDROID_MAGIC ++ [100, 0, 0, 0] ++ List.replicate 596 0

/-- The eight bytes of BADMAGIC. -/
def badmagicBuf : List Nat := [66, 65, 68, 77, 65, 71, 73, 67]

/-- A 1632-byte buffer beginning with BADMAGIC. -/
def badmagicLong : List Nat := badmagicBuf ++ List.replicate 1624 0

/-! ## Claim theorems -/

/-- C1: for every page size p > 0, the standalone parser's offsets are
kernelOffset = p, ramdiskOffset = kernelOffset + align(kernelSize, p),
secondOffset = ramdiskOffset + align(ramdiskSize, p), dtOffset =
secondOffset + align(secondSize, p), where align(x, p) = ceil(x / p) * p (the
least multiple of p that is at least x, characterised by the second
conjunct); in particular for p = 2048 and kernelSize = 12345 the ramdisk
offset is 16384. -/
theorem C1_offset_formulas (ks rs ss p : Nat) (hp : 0 < p) :
    (bootimgOffsets ks rs ss p =
      ⟨p, p + alignSpec ks p, p + alignSpec ks p + alignSpec rs p,
       p + alignSpec ks p + alignSpec rs p + alignSpec ss p⟩) ∧
    (∀ x : Nat, x ≤ alignSpec x p ∧ alignSpec x p < x + p ∧
      p ∣ alignSpec x p ∧ ∀ m : Nat, p ∣ m → x ≤ m → alignSpec x p ≤ m) ∧
    (bootimgOffsets 12345 0 0 2048).ramdisk_offset = 16384 := by
  refine ⟨?_, ?_, by decide⟩
  · show (⟨p, p + align_size ks p, p + align_size ks p + align_size rs p,
        p + align_size ks p + align_size rs p + align_size ss p⟩ :
        BootOffsets) = _
    rw [align_size_eq_alignSpec ks p, align_size_eq_alignSpec rs p,
      align_size_eq_alignSpec ss p]
  · intro x
    exact ⟨le_alignSpec x p hp, alignSpec_lt x p hp, dvd_alignSpec x p,
      fun m hd hx => alignSpec_min x p m hp hd hx⟩

/-- C1 witness: the offset theorem applied at page size 2048 and kernel size
12345 gives the documented ramdisk offset 16384. -/
theorem C1_witness :
    (bootimgOffsets 12345 0 0 2048).ramdisk_offset = 16384 :=
  (C1_offset_formulas 12345 0 0 2048 (by decide)).2.2

/-- C10: for every positive page size and all component sizes, the two
self-contained offset computations agree — aligning each component size
before adding (standalone script) equals aligning the running sum afterwards
(`try_minimal_parse`) — and every resulting offset is a multiple of the page
size. -/
theorem C10_offset_variants_agree (ks rs ss p : Nat) (hp : 0 < p) :
    legacyOffsets ks rs ss p = bootimgOffsets ks rs ss p ∧
    (p ∣ (bootimgOffsets ks rs ss p).kernel_offset ∧
     p ∣ (bootimgOffsets ks rs ss p).ramdisk_offset ∧
     p ∣ (bootimgOffsets ks rs ss p).second_offset ∧
     p ∣ (bootimgOffsets ks rs ss p).dt_offset) := by
  have hk : p ∣ p := dvd_refl p
  have h1 : align_up (p + ks) p = p + align_size ks p :=
    align_up_add_of_dvd p ks p hp hk
  have hr : p ∣ p + align_size ks p := dvd_add hk (dvd_align_size ks p)
  have h2 : align_up (p + align_size ks p + rs) p =
      p + align_size ks p + align_size rs p :=
    align_up_add_of_dvd _ rs p hp hr
  have hs : p ∣ p + align_size ks p + align_size rs p :=
    dvd_add hr (dvd_align_size rs p)
  have h3 : align_up (p + align_size ks p + align_size rs p + ss) p =
      p + align_size ks p + align_size rs p + align_size ss p :=
    align_up_add_of_dvd _ ss p hp hs
  have hd : p ∣ p + align_size ks p + align_size rs p + align_size ss p :=
    dvd_add hs (dvd_align_size ss p)
  constructor
  · show (⟨p, align_up (p + ks) p, align_up (align_up (p + ks) p + rs) p,
        align_up (align_up (align_up (p + ks) p + rs) p + ss) p⟩ :
        BootOffsets) =
      ⟨p, p + align_size ks p, p + align_size ks p + align_size rs p,
       p + align_size ks p + align_size rs p + align_size ss p⟩
    rw [h1, h2, h3]
  · exact ⟨hk, hr, hs, hd⟩

/-- C10 witness: the equivalence applied at page size 2048 and sizes 12345,
777, 33. -/
theorem C10_witness :
    legacyOffsets 12345 777 33 2048 = bootimgOffsets 12345 777 33 2048 :=
  (C10_offset_variants_agree 12345 777 33 2048 (by decide)).1

/-- C2: a buffer whose legacy header declares page size 0 is processed by
`try_minimal_parse` exactly as the same buffer with page size 2048 declared
explicitly (bytes 36-39 patched to little-endian 2048): the substituted
effective page size is 2048 and both buffers produce identical outcomes,
artifacts and info included. -/
theorem C2_zero_page_defaults (data : List Nat)
    (hlen : legacyFmtSize ≤ data.length) (hz : readU32 data 36 = 0) :
    readU32 (patchPageSize data) 36 = 2048 ∧
    effectivePageSize (readU32 data 36) = 2048 ∧
    tryMinimalParse (patchPageSize data) = tryMinimalParse data := by
  have h40 : 40 ≤ data.length := by
    have h' : (40 : Nat) ≤ legacyFmtSize := by norm_num [legacyFmtSize]
    omega
  refine ⟨patchPageSize_page data h40, by rw [hz]; rfl, ?_⟩
  by_cases hm : sliceBytes data 0 8 = ANDROID_MAGIC
  · have hm2 : sliceBytes (patchPageSize data) 0 8 = ANDROID_MAGIC := by
      rw [patchPageSize_magic data h40]; exact hm
    have hl : ¬ data.length < legacyFmtSize := by omega
    have hl2 : ¬ (patchPageSize data).length < legacyFmtSize := by
      rw [patchPageSize_length data h40]; exact hl
    rw [tryMinimalParse_eq_ok data hm hl,
      tryMinimalParse_eq_ok (patchPageSize data) hm2 hl2,
      patchPageSize_header data hlen]
    have hps : (readLegacyHeader data).page_size = 0 := hz
    rw [hps]
    have hps2 : ({ readLegacyHeader data with page_size := 2048 } :
        LegacyHeader).page_size = 2048 := rfl
    rw [hps2]
    have he1 : effectivePageSize 2048 = 2048 := rfl
    have he2 : effectivePageSize 0 = 2048 := rfl
    rw [he1, he2]
    have hx : minimalExtract (patchPageSize data)
        { readLegacyHeader data with page_size := 2048 } 2048 =
        minimalExtract data (readLegacyHeader data) 2048 := by
      have hsame : minimalExtract (patchPageSize data)
          { readLegacyHeader data with page_size := 2048 } 2048 =
          minimalExtract (patchPageSize data) (readLegacyHeader data) 2048 :=
        rfl
      rw [hsame]
      exact patchPageSize_extract data (readLegacyHeader data) hlen
    have hinfo : minimalInfo
        ({ readLegacyHeader data with page_size := 2048 } : LegacyHeader)
        2048 = minimalInfo (readLegacyHeader data) 2048 := rfl
    rw [hx, hinfo]
  · have hm2 : sliceBytes (patchPageSize data) 0 8 ≠ ANDROID_MAGIC := by
      rw [patchPageSize_magic data h40]; exact hm
    rw [tryMinimalParse_magic_fail data hm,
      tryMinimalParse_magic_fail (patchPageSize data) hm2,
      patchPageSize_magic data h40]

/-- C2 witness: the all-zero legacy buffer, whose declared page size is 0,
behaves exactly like its explicitly-2048 patched version. -/
theorem C2_witness :
    readU32 (patchPageSize zeroBuf) 36 = 2048 ∧
    effectivePageSize (readU32 zeroBuf 36) = 2048 ∧
    tryMinimalParse (patchPageSize zeroBuf) = tryMinimalParse zeroBuf :=
  C2_zero_page_defaults zeroBuf (by decide) (by decide)

/-- C9: the extended-layout parser never produces a header for any input:
after its length and magic checks, its `struct.unpack` call always raises
because the 1624-byte slice can never match the 1644-byte format — so the
assignments that would store the dual-purpose field under both
interpretations (dt_size and header_version, lines 70-71) are unreachable. -/
theorem C9_extended_parse_never_succeeds (data : List Nat)
    (hdr : BootImageHeader) : BootImageHeader.parse data ≠ .ok hdr := by
  unfold BootImageHeader.parse
  intro h
  split at h
  · exact Except.noConfusion h
  · split at h
    · exact Except.noConfusion h
    · exact Except.noConfusion h

/-- C4 counterexample: the eight-byte buffer BADMAGIC has a first eight bytes
different from the signature, yet the extended-layout parse fails with the
truncation error, not with InvalidMagic carrying the observed bytes, because
the length check precedes the magic check. -/
theorem C4_counterexample :
    sliceBytes badmagicBuf 0 8 ≠ ANDROID_MAGIC ∧
    BootImageHeader.parse badmagicBuf = .error .truncated ∧
    BootImageHeader.parse badmagicBuf ≠
      .error (.invalidMagic (sliceBytes badmagicBuf 0 8)) := by
  refine ⟨by decide, by decide, by decide⟩

/-- C4 (amended): a buffer whose first eight bytes differ from the signature
fails with InvalidMagic carrying the observed bytes — in the extended-layout
parser only once the buffer passes the prior 1632-byte length check, and in
the legacy parser for every such buffer, its magic check coming first. In
both parsers the failure precedes any extraction, so no artifact or info
record is produced. -/
theorem C4_invalid_magic (data : List Nat)
    (hmag : sliceBytes data 0 8 ≠ ANDROID_MAGIC) :
    (1632 ≤ data.length →
      BootImageHeader.parse data =
        .error (.invalidMagic (sliceBytes data 0 8))) ∧
    tryMinimalParse data = .error (.invalidMagic (sliceBytes data 0 8)) := by
  constructor
  · intro hlen
    unfold BootImageHeader.parse
    rw [if_neg (by omega), if_pos hmag]
  · exact tryMinimalParse_magic_fail data hmag

/-- C4 witness: a 1632-byte buffer beginning with BADMAGIC fails with
InvalidMagic under both parsers. -/
theorem C4_witness :
    BootImageHeader.parse badmagicLong =
      .error (.invalidMagic (sliceBytes badmagicLong 0 8)) ∧
    tryMinimalParse badmagicLong =
      .error (.invalidMagic (sliceBytes badmagicLong 0 8)) :=
  ⟨(C4_invalid_magic badmagicLong (by decide)).1 (by decide),
   (C4_invalid_magic badmagicLong (by decide)).2⟩

/-- C8 counterexample: the eight-byte buffer BADMAGIC is shorter than the
legacy layout's 608-byte minimum, yet the legacy parser fails with
InvalidMagic, not TruncatedHeader, because its magic check comes first. -/
theorem C8_counterexample :
    badmagicBuf.length < legacyFmtSize ∧
    tryMinimalParse badmagicBuf = .error (.invalidMagic badmagicBuf) ∧
    tryMinimalParse badmagicBuf ≠ .error .truncated := by
  refine ⟨by decide, by decide, by decide⟩

/-- C8 (amended): the extended-layout parser fails with the truncation error
on every buffer shorter than 1632 bytes (its length check comes first); the
legacy parser fails with the truncation error on a buffer shorter than its
608-byte layout provided the buffer begins with the magic, the magic check
coming first. Either way the active strategy aborts. -/
theorem C8_truncated_header (data : List Nat) :
    (data.length < 1632 → BootImageHeader.parse data = .error .truncated) ∧
    (sliceBytes data 0 8 = ANDROID_MAGIC → data.length < legacyFmtSize →
      tryMinimalParse data = .error .truncated) := by
  constructor
  · intro h
    unfold BootImageHeader.parse
    rw [if_pos h]
  · intro hm hl
    exact tryMinimalParse_short data hm hl

/-- C8 witness: the bare eight-byte magic is shorter than both layouts and
fails with the truncation error under both parsers. -/
theorem C8_witness :
    BootImageHeader.parse ANDROID_MAGIC = .error .truncated ∧
    tryMinimalParse ANDROID_MAGIC = .error .truncated :=
  ⟨(C8_truncated_header ANDROID_MAGIC).1 (by decide),
   (C8_truncated_header ANDROID_MAGIC).2 (by decide) (by decide)⟩

/-! ## Extraction guards and artifact names -/

/-- Which artifact names the legacy extraction produces: kernel, ramdisk and
second are guarded only by a positive declared size; the device tree is
additionally guarded by its range fitting inside the buffer. -/
theorem minimalExtract_names (data : List Nat) (hdr : LegacyHeader) (p : Nat) :
    (("kernel" ∈ (minimalExtract data hdr p).map Artifact.name) ↔
      0 < hdr.kernel_size) ∧
    (("ramdisk.img" ∈ (minimalExtract data hdr p).map Artifact.name) ↔
      0 < hdr.ramdisk_size) ∧
    (("second" ∈ (minimalExtract data hdr p).map Artifact.name) ↔
      0 < hdr.second_size) ∧
    (("dt.img" ∈ (minimalExtract data hdr p).map Artifact.name) ↔
      (0 < hdr.dt_size ∧
        (legacyOffsets hdr.kernel_size hdr.ramdisk_size hdr.second_size
          p).dt_offset + hdr.dt_size ≤ data.length)) := by
  by_cases h1 : 0 < hdr.kernel_size <;>
    by_cases h2 : 0 < hdr.ramdisk_size <;>
      by_cases h3 : 0 < hdr.second_size <;>
        by_cases h4 : 0 < hdr.dt_size ∧
            (legacyOffsets hdr.kernel_size hdr.ramdisk_size hdr.second_size
              p).dt_offset + hdr.dt_size ≤ data.length <;>
          simp [minimalExtract, h1, h2, h3, h4]

/-- Every artifact of the legacy extraction carries one of the four fixed
names. -/
theorem minimalExtract_names_subset (data : List Nat) (hdr : LegacyHeader)
    (p : Nat) (a : Artifact) (ha : a ∈ minimalExtract data hdr p) :
    a.name ∈ (["kernel", "ramdisk.img", "second", "dt.img"] : List String) := by
  unfold minimalExtract at ha
  simp only [List.mem_append] at ha
  rcases ha with ((ha | ha) | ha) | ha <;> split at ha <;> simp_all

/-- Every artifact of the standalone extraction carries one of its four names,
with ramdisk.gz in place of ramdisk.img. -/
theorem extractComponents_names_subset (hdr : BootImageHeader)
    (data : List Nat) (a : Artifact) (ha : a ∈ extractComponents hdr data) :
    a.name ∈ (["kernel", "ramdisk.gz", "second", "dt.img"] : List String) := by
  unfold extractComponents at ha
  simp only [List.mem_append] at ha
  rcases ha with ((ha | ha) | ha) | ha <;> split at ha <;> simp_all

/-- The artifact names of an unpack outcome, when it succeeded. -/
def artifactNames : Except MinErr MinimalResult → Option (List String)
  | .ok r => some (r.artifacts.map Artifact.name)
  | .error _ => none

/-- C3 counterexample: a 608-byte buffer declaring kernel_size = 100 has a
kernel range [2048, 2148) entirely outside the buffer, yet the kernel
artifact is produced (as an empty slice) rather than omitted. -/
theorem C3_counterexample :
    c3buf.length = 608 ∧
    (readLegacyHeader c3buf).kernel_size = 100 ∧
    effectivePageSize (readLegacyHeader c3buf).page_size = 2048 ∧
    c3buf.length < (legacyOffsets 100 0 0 2048).kernel_offset + 100 ∧
    artifactNames (tryMinimalParse c3buf) = some ["kernel"] := by
  refine ⟨by decide, by decide, by decide, by decide, by decide⟩

/-- C3 (amended): in every successful legacy unpack, kernel, ramdisk and
second artifacts are produced exactly when their declared size is positive,
regardless of whether their range fits the buffer (out-of-range slices clamp,
possibly to empty content); only the device tree is additionally guarded by
its range fitting inside the buffer, and an out-of-bounds device tree is
silently omitted without blocking the other components. -/
theorem C3_component_guards (data : List Nat) (r : MinimalResult)
    (h : tryMinimalParse data = .ok r) :
    (("kernel" ∈ r.artifacts.map Artifact.name) ↔
      0 < (readLegacyHeader data).kernel_size) ∧
    (("ramdisk.img" ∈ r.artifacts.map Artifact.name) ↔
      0 < (readLegacyHeader data).ramdisk_size) ∧
    (("second" ∈ r.artifacts.map Artifact.name) ↔
      0 < (readLegacyHeader data).second_size) ∧
    (("dt.img" ∈ r.artifacts.map Artifact.name) ↔
      (0 < (readLegacyHeader data).dt_size ∧
        (legacyOffsets (readLegacyHeader data).kernel_size
          (readLegacyHeader data).ramdisk_size
          (readLegacyHeader data).second_size
          (effectivePageSize (readLegacyHeader data).page_size)).dt_offset +
          (readLegacyHeader data).dt_size ≤ data.length)) := by
  by_cases hm : sliceBytes data 0 8 = ANDROID_MAGIC
  · by_cases hl : data.length < legacyFmtSize
    · rw [tryMinimalParse_short data hm hl] at h
      exact Except.noConfusion h
    · rw [tryMinimalParse_eq_ok data hm hl] at h
      injection h with h
      subst h
      exact minimalExtract_names data (readLegacyHeader data) _
  · rw [tryMinimalParse_magic_fail data hm] at h
    exact Except.noConfusion h

/-- The outcome of the legacy unpack of c3buf: one empty kernel artifact. -/
def c3res : MinimalResult :=
  ⟨[⟨"kernel", []⟩], minimalInfo (readLegacyHeader c3buf) 2048⟩

/-- The outcome of the legacy unpack of the all-zero buffer: no artifacts. -/
def zeroRes : MinimalResult :=
  ⟨[], minimalInfo (readLegacyHeader zeroBuf) 2048⟩

/-- C3 witness: the guard characterisation applied to the concrete buffer
declaring kernel_size = 100. -/
theorem C3_witness :
    ("kernel" ∈ c3res.artifacts.map Artifact.name) ↔
      0 < (readLegacyHeader c3buf).kernel_size :=
  (C3_component_guards c3buf c3res (by decide)).1

/-- A one-byte-per-component header with page size 1, driving the standalone
extractor. -/
def hdrC5 : BootImageHeader :=
  { kernel_size := 1, ramdisk_size := 1, second_size := 1, page_size := 1 }

/-- C5 counterexample: the standalone extractor names its ramdisk artifact
ramdisk.gz, which is not among the four documented strategy-independent
names. -/
theorem C5_counterexample :
    (extractComponents hdrC5 [9, 9, 9, 9, 9]).map Artifact.name =
      ["kernel", "ramdisk.gz", "second"] ∧
    ¬ ("ramdisk.gz" ∈ (["kernel", "ramdisk.img", "second", "dt.img"] :
      List String)) := by
  refine ⟨by decide, by decide⟩

/-- C5 (amended): both strategies of the two-strategy script write extracted
components only under the fixed names kernel, ramdisk.img, second, dt.img;
the standalone script's extractor deviates from the documented set, naming
the ramdisk artifact ramdisk.gz. -/
theorem C5_fixed_output_names (env : ToolEnv) (data : List Nat)
    (hdr : BootImageHeader) (d1 : List Nat) :
    (∀ r, try_abootimg_extract env = some r →
      r.artifacts.map Artifact.name = ["kernel", "ramdisk.img"]) ∧
    (∀ r, tryMinimalParse data = .ok r → ∀ a ∈ r.artifacts,
      a.name ∈ (["kernel", "ramdisk.img", "second", "dt.img"] :
        List String)) ∧
    (∀ a ∈ extractComponents hdr d1,
      a.name ∈ (["kernel", "ramdisk.gz", "second", "dt.img"] :
        List String)) := by
  refine ⟨?_, ?_, fun a ha => extractComponents_names_subset hdr d1 a ha⟩
  · intro r hr
    unfold try_abootimg_extract at hr
    split at hr
    · exact Option.noConfusion hr
    · split at hr
      · injection hr with hr
        subst hr
        rfl
      all_goals exact Option.noConfusion hr
  · intro r hr a ha
    by_cases hm : sliceBytes data 0 8 = ANDROID_MAGIC
    · by_cases hl : data.length < legacyFmtSize
      · rw [tryMinimalParse_short data hm hl] at hr
        exact Except.noConfusion hr
      · rw [tryMinimalParse_eq_ok data hm hl] at hr
        injection hr with hr
        subst hr
        exact minimalExtract_names_subset data (readLegacyHeader data) _ a ha
    · rw [tryMinimalParse_magic_fail data hm] at hr
      exact Except.noConfusion hr

/-- A tool run that succeeded, leaving zImage and initrd.img but no config. -/
def envTool : ToolEnv :=
  { runOk := true, files := ["zImage", "initrd.img"],
    fileContent := fun _ => [], cfgLines := [] }

/-- C5 witness: the fixed-name theorem applied to a concrete successful
delegated-tool run. -/
theorem C5_witness :
    ([⟨"kernel", ([] : List Nat)⟩, ⟨"ramdisk.img", ([] : List Nat)⟩] :
      List Artifact).map Artifact.name = ["kernel", "ramdisk.img"] :=
  (C5_fixed_output_names envTool [] {} []).1
    ⟨[⟨"kernel", []⟩, ⟨"ramdisk.img", []⟩], false, none⟩ rfl

/-- Lookup of a key in a successful self-parsed unpack's info record. -/
def infoLookup (res : Except MinErr MinimalResult) (key : String) :
    Option String :=
  match res with
  | .ok r => (r.info.find? (fun kv => kv.1 == key)).map Prod.snd
  | .error _ => none

/-- The 14 documented info keys, in file order. -/
def infoKeys : List String :=
  ["kernel_size", "kernel_addr", "ramdisk_size", "ramdisk_addr",
   "second_size", "second_addr", "tags_addr", "page_size", "dt_size",
   "header_version", "os_version", "name", "cmdline", "extra_cmdline"]

/-- C6 counterexample: in a successful legacy unpack the kernel_addr value is
the literal 0x0, not the zero-padded eight-digit lowercase form 0x00000000
that the claim requires. -/
theorem C6_counterexample :
    infoLookup (tryMinimalParse zeroBuf) "kernel_addr" = some "0x0" ∧
    "0x" ++ hex8 0 = "0x00000000" ∧
    ("0x0" : String) ≠ "0x00000000" := by
  refine ⟨by decide, by decide, by decide⟩

/-- C6 (amended): the legacy parser's info record always carries exactly the
14 documented keys, with all four address values written as the unpadded
literal 0x0; the delegated-tool path emits an info record only when the tool
left a bootimg.cfg, and that record then carries exactly the 14 documented
keys — with every value a fixed sentinel whenever no config line holds a
backslash byte, since the escaped backslashes of the val regex then never
match and the defaults 0/0/0/2048 are written, never config values. -/
theorem C6_info_schema (data : List Nat) (r : MinimalResult) (env : ToolEnv)
    (t : AbootResult) (hmin : tryMinimalParse data = .ok r)
    (htool : try_abootimg_extract env = some t) :
    r.info.map Prod.fst = infoKeys ∧
    (infoLookup (.ok r) "kernel_addr" = some "0x0" ∧
     infoLookup (.ok r) "ramdisk_addr" = some "0x0" ∧
     infoLookup (.ok r) "second_addr" = some "0x0" ∧
     infoLookup (.ok r) "tags_addr" = some "0x0") ∧
    (t.info = none ↔ env.files.contains "bootimg.cfg" = false) ∧
    (∀ i, t.info = some i → i.map Prod.fst = infoKeys ∧
      ((∀ line ∈ env.cfgLines, ¬ 92 ∈ line) → i = abootInfoDefaults)) := by
  have hrinfo : r.info = minimalInfo (readLegacyHeader data)
      (effectivePageSize (readLegacyHeader data).page_size) := by
    by_cases hm : sliceBytes data 0 8 = ANDROID_MAGIC
    · by_cases hl : data.length < legacyFmtSize
      · rw [tryMinimalParse_short data hm hl] at hmin
        exact Except.noConfusion hmin
      · rw [tryMinimalParse_eq_ok data hm hl] at hmin
        injection hmin with hmin
        rw [← hmin]
    · rw [tryMinimalParse_magic_fail data hm] at hmin
      exact Except.noConfusion hmin
  have htinfo : t.info =
      (if env.files.contains "bootimg.cfg" then some (abootInfo env)
       else none) := by
    unfold try_abootimg_extract at htool
    split at htool
    · exact Option.noConfusion htool
    · split at htool
      · injection htool with htool
        rw [← htool]
      all_goals exact Option.noConfusion htool
  refine ⟨?_, ⟨?_, ?_, ?_, ?_⟩, ?_, ?_⟩
  · rw [hrinfo]; rfl
  · show (r.info.find? (fun kv => kv.1 == "kernel_addr")).map Prod.snd =
      some "0x0"
    rw [hrinfo]; rfl
  · show (r.info.find? (fun kv => kv.1 == "ramdisk_addr")).map Prod.snd =
      some "0x0"
    rw [hrinfo]; rfl
  · show (r.info.find? (fun kv => kv.1 == "second_addr")).map Prod.snd =
      some "0x0"
    rw [hrinfo]; rfl
  · show (r.info.find? (fun kv => kv.1 == "tags_addr")).map Prod.snd =
      some "0x0"
    rw [hrinfo]; rfl
  · rw [htinfo]
    cases hc : env.files.contains "bootimg.cfg" <;> simp [hc]
  · intro i hi
    rw [htinfo] at hi
    cases hc : env.files.contains "bootimg.cfg"
    · rw [hc] at hi
      simp at hi
    · rw [hc] at hi
      simp at hi
      subst hi
      exact ⟨rfl, fun hbs => abootInfo_defaults env hbs⟩

/-- C6 witness: the schema theorem applied to the all-zero buffer and a
concrete delegated-tool run without a config file. -/
theorem C6_witness :
    zeroRes.info.map Prod.fst = infoKeys :=
  (C6_info_schema zeroBuf zeroRes envTool
    ⟨[⟨"kernel", []⟩, ⟨"ramdisk.img", []⟩], false, none⟩ (by decide) rfl).1

/-- C7: whenever the delegated tool run failed (tool missing or non-zero
exit) or left no kernel or no ramdisk candidate file, the wrapper reports
failure, main falls back to the self-contained parser, and the process exit
code is 0 exactly when the fallback succeeds — the tool failure itself is
never surfaced as the outcome. -/
theorem C7_fallback_strategy (env : ToolEnv) (data : List Nat)
    (h : env.runOk = false ∨ firstSource kernel_candidates env.files = none ∨
      firstSource ramdisk_candidates env.files = none) :
    try_abootimg_extract env = none ∧
    mainRun env data = (match tryMinimalParse data with
      | .ok r => (.viaMinimal r, 0)
      | .error e => (.failed e, 1)) ∧
    ((mainRun env data).2 = 0 ↔ ∃ r, tryMinimalParse data = .ok r) := by
  have htool : try_abootimg_extract env = none := by
    unfold try_abootimg_extract
    cases hr : env.runOk with
    | false => simp
    | true =>
      rw [if_neg (by simp [hr])]
      rcases h with h | h | h
      · rw [hr] at h
        exact Bool.noConfusion h
      · rw [h]
      · rw [h]
        cases firstSource kernel_candidates env.files <;> rfl
  refine ⟨htool, ?_, ?_⟩
  · unfold mainRun
    rw [htool]
  · unfold mainRun
    rw [htool]
    cases he : tryMinimalParse data <;> simp

/-- A failed tool run: the subprocess raised, so no outputs exist. -/
def envNoTool : ToolEnv :=
  { runOk := false, files := [], fileContent := fun _ => [],
    cfgLines := [] }

/-- C7 witness: with the tool unavailable, the all-zero buffer is unpacked by
the fallback parser and the process exits 0. -/
theorem C7_witness :
    try_abootimg_extract envNoTool = none ∧
    mainRun envNoTool zeroBuf = (match tryMinimalParse zeroBuf with
      | .ok r => (.viaMinimal r, 0)
      | .error e => (.failed e, 1)) ∧
    ((mainRun envNoTool zeroBuf).2 = 0 ↔
      ∃ r, tryMinimalParse zeroBuf = .ok r) :=
  C7_fallback_strategy envNoTool zeroBuf (Or.inl rfl)

end BootImg
